import Mathlib

/-!
Verification of the weighted multi-criteria evaluation scorer of the
"success-criteria-agent" repository.

Embedding conventions:
- JavaScript numbers are modelled as rationals (`ℚ`); the JavaScript `NaN`
  sentinel produced by `evaluateCriteria` is modelled as `none` in an
  `Option ℚ` result (`some q` is an ordinary number).
- The TypeScript tagged union `Criterion = SoftCriterion | HardCriterion`
  is structurally typed in the source (the test suite passes a value with
  an unrecognized tag through a cast), so the embedding keeps the tag as a
  `String` field, exactly the shape `isValidCriterion` inspects.
- `Array.prototype.reduce` with a `+` accumulator is `List.foldl`.

For the "Run All" flow of `src/app/app/page.tsx`:
- The `Requirement` UI record keeps the fields the run logic reads or
  writes (`weight`, `type`, `threshold`, `required`, `loading`, `result`,
  `score`) plus the inert data fields (`id`, `text`, `model`); the
  `fitToContent` display flag and the human-readable `reasoning` string
  (built with `toFixed`) are presentation-only and are omitted.
- `Math.random()` is modelled by passing the draw in `[0, 1)` as an
  explicit argument; `handleRunAll` takes one draw per requirement.
-/

/-- Embedding of the `Criterion` shape of `src/lib/utils.ts`: a tag
(`"soft"` or `"hard"` in well-typed code), a numeric score and a numeric
weight. The tag is kept as a string because the source is structurally
typed and `isValidCriterion` must answer `false` on unrecognized tags. -/
structure Criterion where
  type : String
  score : ℚ
  weight : ℚ
  deriving DecidableEq, Repr

/-- The running total `criteria.reduce((sum, c) => sum + c.weight, 0)`
from `evaluateCriteria` in `src/lib/utils.ts`. -/
def totalWeight (criteria : List Criterion) : ℚ :=
  criteria.foldl (fun sum c => sum + c.weight) 0

/-- The running total `criteria.reduce((sum, c) => sum + c.score * c.weight, 0)`
from `evaluateCriteria` in `src/lib/utils.ts`. -/
def weightedSum (criteria : List Criterion) : ℚ :=
  criteria.foldl (fun sum c => sum + c.score * c.weight) 0

/-- Embedding of `evaluateCriteria` from `src/lib/utils.ts`:
`totalWeight === 0` returns the `NaN` sentinel (`none`); otherwise the
weighted sum divided by the total weight. -/
def evaluateCriteria (criteria : List Criterion) : Option ℚ :=
  if totalWeight criteria = 0 then none
  else some (weightedSum criteria / totalWeight criteria)

/-- Embedding of `isValidCriterion` from `src/lib/utils.ts`, branch by
branch: the `"soft"` branch, the `"hard"` branch, and the fall-through
`return false` for any other tag. -/
def isValidCriterion (criterion : Criterion) : Bool :=
  if criterion.type = "soft" then
    decide (criterion.score ≥ 0) && decide (criterion.score ≤ 1) &&
      decide (criterion.weight ≥ 0)
  else if criterion.type = "hard" then
    (decide (criterion.score = 0) || decide (criterion.score = 1)) &&
      decide (criterion.weight ≥ 0)
  else
    false

/-- The two requirement kinds of the `Requirement` type in
`src/app/app/page.tsx`: `"pass-fail"` and `"subjective"`. -/
inductive ReqType where
  | passFail
  | subjective
  deriving DecidableEq, Repr

/-- The `"pass" | "fail"` outcome of a run. -/
inductive RunResult where
  | pass
  | fail
  deriving DecidableEq, Repr

/-- Embedding of the `Requirement` record of `src/app/app/page.tsx`
(presentation-only fields omitted, see the module comment). -/
structure Requirement where
  id : ℕ
  text : String
  weight : ℚ
  type : ReqType
  threshold : ℚ
  model : String
  required : Bool
  loading : Bool
  result : Option RunResult
  score : Option ℚ
  deriving DecidableEq, Repr

/-- Math.round applied to a draw in `[0, 1)`: `0` below one half, `1`
from one half up (JavaScript rounds halves up). -/
def roundDraw (draw : ℚ) : ℚ :=
  if draw < 1/2 then 0 else 1

/-- Embedding of `runSingleRequirement` from `src/app/app/page.tsx` with
the `Math.random()` draw passed explicitly: a pass-fail requirement gets
the rounded draw as a binary score and passes on `1`; a subjective
requirement gets the raw draw and passes when it reaches the
requirement's own threshold. The result starts as `"fail"` and is
upgraded to `"pass"` by the branch conditions, exactly as in the source. -/
def runSingleRequirement (req : Requirement) (draw : ℚ) : Requirement :=
  match req.type with
  | ReqType.passFail =>
      let randomBit := roundDraw draw
      { req with
          loading := false
          result := some (if randomBit = 1 then RunResult.pass else RunResult.fail)
          score := some randomBit }
  | ReqType.subjective =>
      { req with
          loading := false
          result := some (if draw ≥ req.threshold then RunResult.pass else RunResult.fail)
          score := some draw }

/-- The `validReqs` filter of `handleRunAll`: requirements whose score is
non-null. -/
def validReqs (reqs : List Requirement) : List Requirement :=
  reqs.filter (fun r => r.score.isSome)

/-- The `totalWeight` accumulator of `handleRunAll`:
`validReqs.reduce((sum, req) => sum + req.weight, 0)`. -/
def reqTotalWeight (reqs : List Requirement) : ℚ :=
  (validReqs reqs).foldl (fun sum r => sum + r.weight) 0

/-- The `weightedSum` accumulator of `handleRunAll`:
`validReqs.reduce((sum, req) => sum + (req.score ?? 0) * req.weight, 0)`. -/
def reqWeightedSum (reqs : List Requirement) : ℚ :=
  (validReqs reqs).foldl (fun sum r => sum + r.score.getD 0 * r.weight) 0

/-- The inline `overallScore` of `handleRunAll`:
`totalWeight > 0 ? weightedSum / totalWeight : 0`. -/
def overallScore (reqs : List Requirement) : ℚ :=
  if reqTotalWeight reqs > 0 then reqWeightedSum reqs / reqTotalWeight reqs
  else 0

/-- The inline `overallPass` of `handleRunAll`:
`overallScore >= successThreshold`. -/
def overallPass (reqs : List Requirement) (successThreshold : ℚ) : Bool :=
  decide (overallScore reqs ≥ successThreshold)

/-- The overall record `handleRunAll` stores (the `reasoning` string is
presentation-only and omitted). -/
structure OverallResult where
  result : Option RunResult
  score : Option ℚ
  deriving DecidableEq, Repr

/-- Embedding of `handleRunAll` from `src/app/app/page.tsx`: score every
requirement with its own draw, then aggregate with the inline weighted
mean and compare against the canvas-level success threshold. Returns the
updated requirement list and the overall result it stores. -/
def handleRunAll (reqs : List Requirement) (draws : List ℚ)
    (successThreshold : ℚ) : List Requirement × OverallResult :=
  let updated := List.zipWith runSingleRequirement reqs draws
  let pass := overallPass updated successThreshold
  (updated,
    { result := some (if pass then RunResult.pass else RunResult.fail)
      score := some (overallScore updated) })

/-- The criterion tag of §6 of the spec corresponding to each requirement
kind: pass-fail requirements are hard criteria, subjective ones soft. -/
def criterionTag : ReqType → String
  | ReqType.passFail => "hard"
  | ReqType.subjective => "soft"

/-- The `{type, score, weight}` criterion extracted from a scored
requirement (a null score reads as 0, as in `req.score ?? 0`). -/
def toCriterion (req : Requirement) : Criterion :=
  { type := criterionTag req.type
    score := req.score.getD 0
    weight := req.weight }

/-- A required pass-fail requirement of weight zero, as a user can author
one in the Run All page. -/
def reqHardRequired : Requirement :=
  { id := 1, text := "must hold", weight := 0, type := ReqType.passFail,
    threshold := 0, model := "gpt-4o", required := true, loading := false,
    result := none, score := none }

/-- An optional subjective requirement of weight one and threshold zero. -/
def reqSoftOptional : Requirement :=
  { id := 2, text := "nice to have", weight := 1, type := ReqType.subjective,
    threshold := 0, model := "gpt-4o", required := false, loading := false,
    result := none, score := none }

/-- A scored subjective requirement, for the C8 witness. -/
def scoredReqA : Requirement :=
  { id := 3, text := "clarity", weight := 2, type := ReqType.subjective,
    threshold := 1/2, model := "gpt-4o", required := false, loading := false,
    result := some RunResult.pass, score := some (4/5) }

/-- A scored pass-fail requirement, for the C8 witness. -/
def scoredReqB : Requirement :=
  { id := 4, text := "length", weight := 1, type := ReqType.passFail,
    threshold := 0, model := "gpt-4o", required := false, loading := false,
    result := some RunResult.pass, score := some 1 }

/-- A left fold accumulating `+ f x` from `a` is `a` plus the sum of the
mapped list. -/
theorem foldl_add_eq_sum {α : Type} (f : α → ℚ) :
    ∀ (l : List α) (a : ℚ), l.foldl (fun s x => s + f x) a = a + (l.map f).sum := by
  intro l
  induction l with
  | nil => intro a; simp
  | cons x xs ih =>
      intro a
      simp only [List.foldl_cons, List.map_cons, List.sum_cons]
      rw [ih]
      ring

/-- The total weight is the sum of the weights. -/
theorem totalWeight_eq_sum (criteria : List Criterion) :
    totalWeight criteria = (criteria.map (fun c => c.weight)).sum := by
  unfold totalWeight
  rw [foldl_add_eq_sum]
  simp

/-- The weighted sum is the sum of score-times-weight. -/
theorem weightedSum_eq_sum (criteria : List Criterion) :
    weightedSum criteria = (criteria.map (fun c => c.score * c.weight)).sum := by
  unfold weightedSum
  rw [foldl_add_eq_sum]
  simp

/-- C1: when the weights sum to a nonzero total, `evaluateCriteria`
returns exactly the sum of score-times-weight divided by the sum of the
weights — the plain weighted arithmetic mean, with no clamping, rounding
or further normalization. -/
theorem claim_C1_weighted_mean (criteria : List Criterion)
    (h : (criteria.map (fun c => c.weight)).sum ≠ 0) :
    evaluateCriteria criteria =
      some ((criteria.map (fun c => c.score * c.weight)).sum /
        (criteria.map (fun c => c.weight)).sum) := by
  unfold evaluateCriteria
  rw [totalWeight_eq_sum, weightedSum_eq_sum]
  simp [h]

/-- Witness for C1 at the spec's own worked example
`[{soft,0.8,2},{hard,1,1},{soft,0.5,1}]`, whose mean is `0.775`. -/
theorem claim_C1_weighted_mean_witness :
    evaluateCriteria
        [⟨"soft", 4/5, 2⟩, ⟨"hard", 1, 1⟩, ⟨"soft", 1/2, 1⟩] =
      some (31/40) := by
  have h := claim_C1_weighted_mean
    [⟨"soft", 4/5, 2⟩, ⟨"hard", 1, 1⟩, ⟨"soft", 1/2, 1⟩] (by norm_num)
  rw [h]
  norm_num

/-- C3: on the empty list, or on any list whose weights total zero,
`evaluateCriteria` returns the `NaN` sentinel (`none`) — not zero, and
(being a total function into `Option ℚ`) without raising an exception. -/
theorem claim_C3_nan_sentinel (criteria : List Criterion)
    (h : criteria = [] ∨ totalWeight criteria = 0) :
    evaluateCriteria criteria = none := by
  have htw : totalWeight criteria = 0 := by
    rcases h with h | h
    · subst h; rfl
    · exact h
  unfold evaluateCriteria
  simp [htw]

/-- Witness for C3 at a concrete two-element list of zero total weight
(the shape of the unit test in `src/lib/utils.test.ts`). -/
theorem claim_C3_nan_sentinel_witness :
    evaluateCriteria [⟨"soft", 1/2, 0⟩, ⟨"hard", 1, 0⟩] = none :=
  claim_C3_nan_sentinel [⟨"soft", 1/2, 0⟩, ⟨"hard", 1, 0⟩]
    (Or.inr (by norm_num [totalWeight, List.foldl]))

/-- C5: `isValidCriterion` answers true exactly on soft criteria with
score in `[0,1]` and non-negative weight, and on hard criteria with score
`0` or `1` and non-negative weight; every other tag is rejected. The
embedding is a total function into `Bool`, so it always returns a boolean
and has no side effects or exceptions. -/
theorem claim_C5_validity (c : Criterion) :
    isValidCriterion c = true ↔
      (c.type = "soft" ∧ 0 ≤ c.score ∧ c.score ≤ 1 ∧ 0 ≤ c.weight) ∨
      (c.type = "hard" ∧ (c.score = 0 ∨ c.score = 1) ∧ 0 ≤ c.weight) := by
  unfold isValidCriterion
  by_cases hs : c.type = "soft"
  · simp [hs]
    constructor
    · rintro ⟨⟨h1, h2⟩, h3⟩; exact ⟨h1, h2, h3⟩
    · rintro ⟨h1, h2, h3⟩; exact ⟨⟨h1, h2⟩, h3⟩
  · by_cases hh : c.type = "hard"
    · simp [hs, hh]
    · simp [hs, hh]

/-- A criterion accepted by `isValidCriterion` has score in `[0, 1]` and
non-negative weight (hard scores `{0, 1}` are inside `[0, 1]`). -/
theorem isValidCriterion_bounds (c : Criterion) (h : isValidCriterion c = true) :
    0 ≤ c.score ∧ c.score ≤ 1 ∧ 0 ≤ c.weight := by
  unfold isValidCriterion at h
  by_cases hs : c.type = "soft"
  · simp [hs] at h
    exact ⟨h.1.1, h.1.2, h.2⟩
  · by_cases hh : c.type = "hard"
    · simp [hs, hh] at h
      rcases h with ⟨h01, hw⟩
      rcases h01 with h0 | h1
      · rw [h0]; exact ⟨le_refl 0, by norm_num, hw⟩
      · rw [h1]; exact ⟨by norm_num, le_refl 1, hw⟩
    · simp [hs, hh] at h

/-- C6 fails as stated: a list made of a single valid criterion of weight
zero (every criterion passes `isValidCriterion`) makes `evaluateCriteria`
return the `NaN` sentinel, which lies in no interval at all. -/
theorem claim_C6_counterexample :
    isValidCriterion ⟨"soft", 1/2, 0⟩ = true ∧
    ¬ ∃ q : ℚ, evaluateCriteria [⟨"soft", 1/2, 0⟩] = some q ∧ 0 ≤ q ∧ q ≤ 1 := by
  constructor
  · norm_num [isValidCriterion]
  · intro ⟨q, hq, _⟩
    simp [evaluateCriteria, totalWeight, List.foldl] at hq

/-- C6 amended: when every criterion is valid AND the total weight is
nonzero (equivalently, the result is not the `NaN` sentinel), the
aggregate exists and lies in the closed interval `[0, 1]`. -/
theorem claim_C6_valid_bounds (criteria : List Criterion)
    (hv : ∀ c ∈ criteria, isValidCriterion c = true)
    (htw : totalWeight criteria ≠ 0) :
    ∃ q : ℚ, evaluateCriteria criteria = some q ∧ 0 ≤ q ∧ q ≤ 1 := by
  have hws0 : 0 ≤ (criteria.map (fun c => c.score * c.weight)).sum := by
    apply List.sum_nonneg
    intro x hx
    rcases List.mem_map.mp hx with ⟨c, hc, rfl⟩
    have hb := isValidCriterion_bounds c (hv c hc)
    exact mul_nonneg hb.1 hb.2.2
  have hwsle : (criteria.map (fun c => c.score * c.weight)).sum ≤
      (criteria.map (fun c => c.weight)).sum := by
    apply List.sum_le_sum
    intro c hc
    have hb := isValidCriterion_bounds c (hv c hc)
    calc c.score * c.weight ≤ 1 * c.weight :=
          mul_le_mul_of_nonneg_right hb.2.1 hb.2.2
      _ = c.weight := one_mul _
  have htw0 : 0 ≤ (criteria.map (fun c => c.weight)).sum := by
    apply List.sum_nonneg
    intro x hx
    rcases List.mem_map.mp hx with ⟨c, hc, rfl⟩
    exact (isValidCriterion_bounds c (hv c hc)).2.2
  have htw' : totalWeight criteria = (criteria.map (fun c => c.weight)).sum :=
    totalWeight_eq_sum criteria
  have htwpos : 0 < (criteria.map (fun c => c.weight)).sum := by
    rcases lt_or_eq_of_le htw0 with h | h
    · exact h
    · exact absurd (htw'.trans h.symm) htw
  refine ⟨weightedSum criteria / totalWeight criteria, ?_, ?_, ?_⟩
  · unfold evaluateCriteria
    simp [htw]
  · rw [htw', weightedSum_eq_sum]
    exact div_nonneg hws0 (le_of_lt htwpos)
  · rw [htw', weightedSum_eq_sum]
    exact (div_le_one htwpos).mpr hwsle

/-- Witness for the amended C6 at the spec's worked example, whose
criteria are all valid and whose total weight is 4. -/
theorem claim_C6_valid_bounds_witness :
    ∃ q : ℚ, evaluateCriteria
        [⟨"soft", 4/5, 2⟩, ⟨"hard", 0, 1⟩, ⟨"soft", 1/2, 1⟩] = some q ∧
      0 ≤ q ∧ q ≤ 1 := by
  apply claim_C6_valid_bounds
  · intro c hc
    simp only [List.mem_cons, List.not_mem_nil, or_false] at hc
    rcases hc with rfl | rfl | rfl <;> norm_num [isValidCriterion]
  · norm_num [totalWeight, List.foldl]

/-- C7: inserting a criterion of weight zero at any position (between a
prefix `l1` and a suffix `l2`) leaves `evaluateCriteria` unchanged: it
contributes to neither the numerator nor the denominator. -/
theorem claim_C7_zero_weight_inert (l1 l2 : List Criterion) (c : Criterion)
    (h : c.weight = 0) :
    evaluateCriteria (l1 ++ c :: l2) = evaluateCriteria (l1 ++ l2) := by
  have htw : totalWeight (l1 ++ c :: l2) = totalWeight (l1 ++ l2) := by
    rw [totalWeight_eq_sum, totalWeight_eq_sum]
    simp [h]
  have hws : weightedSum (l1 ++ c :: l2) = weightedSum (l1 ++ l2) := by
    rw [weightedSum_eq_sum, weightedSum_eq_sum]
    simp [h]
  unfold evaluateCriteria
  rw [htw, hws]

/-- Witness for C7 at the spec's worked example: a zero-weight hard
criterion inserted in the middle leaves the aggregate at `0.7`. -/
theorem claim_C7_zero_weight_inert_witness :
    evaluateCriteria [⟨"soft", 4/5, 2⟩, ⟨"hard", 1, 0⟩, ⟨"soft", 1/2, 1⟩] =
      evaluateCriteria [⟨"soft", 4/5, 2⟩, ⟨"soft", 1/2, 1⟩] :=
  claim_C7_zero_weight_inert [⟨"soft", 4/5, 2⟩] [⟨"soft", 1/2, 1⟩]
    ⟨"hard", 1, 0⟩ rfl

/-- Scoring a requirement does not change its weight. -/
theorem runSingleRequirement_weight (req : Requirement) (draw : ℚ) :
    (runSingleRequirement req draw).weight = req.weight := by
  unfold runSingleRequirement
  cases req.type <;> rfl

/-- Scoring a requirement always produces a non-null score. -/
theorem runSingleRequirement_score_isSome (req : Requirement) (draw : ℚ) :
    (runSingleRequirement req draw).score.isSome = true := by
  unfold runSingleRequirement
  cases req.type <;> rfl

/-- When every score is non-null, the `validReqs` filter keeps the whole
list. -/
theorem validReqs_eq_self (reqs : List Requirement)
    (h : ∀ r ∈ reqs, r.score.isSome = true) : validReqs reqs = reqs :=
  List.filter_eq_self.mpr h

/-- The aggregated total weight is the sum of the valid requirements'
weights. -/
theorem reqTotalWeight_eq_sum (reqs : List Requirement) :
    reqTotalWeight reqs = ((validReqs reqs).map (fun r => r.weight)).sum := by
  unfold reqTotalWeight
  rw [foldl_add_eq_sum]
  simp

/-- The aggregated weighted sum is the sum of score-times-weight over the
valid requirements. -/
theorem reqWeightedSum_eq_sum (reqs : List Requirement) :
    reqWeightedSum reqs =
      ((validReqs reqs).map (fun r => r.score.getD 0 * r.weight)).sum := by
  unfold reqWeightedSum
  rw [foldl_add_eq_sum]
  simp

/-- C2 fails on the Run All flow: in the run below the required
requirement draws `0.3` and fails its local pass-fail test (score `0`,
result `"fail"`), yet `handleRunAll` reports the overall verdict
`"pass"` with aggregate `0.9 ≥ 0.8`, because its decision
`overallScore >= successThreshold` never consults the `required` flag. -/
theorem claim_C2_run_all_ignores_required :
    ((handleRunAll [reqHardRequired, reqSoftOptional] [3/10, 9/10] (8/10)).1.map
        (fun r => (r.required, r.result)) =
      [(true, some RunResult.fail), (false, some RunResult.pass)]) ∧
    (handleRunAll [reqHardRequired, reqSoftOptional] [3/10, 9/10] (8/10)).2 =
      { result := some RunResult.pass, score := some (9/10) } := by
  constructor
  · norm_num [handleRunAll, runSingleRequirement, roundDraw,
      reqHardRequired, reqSoftOptional]
  · norm_num [handleRunAll, runSingleRequirement, overallScore, overallPass,
      reqTotalWeight, reqWeightedSum, validReqs, roundDraw,
      reqHardRequired, reqSoftOptional, List.filter, List.foldl]

/-- C4 fails on the Run All flow: on an empty run (total weight zero,
the case §4.2 maps to the `NaN` sentinel, as the second conjunct shows)
`handleRunAll` special-cases the aggregate into the number `0` and, with
success threshold `0`, reports the verdict `"pass"` instead of the
claimed "indeterminate, therefore not passed". -/
theorem claim_C4_nan_case_special_cased :
    (handleRunAll [] [] 0).2 =
      { result := some RunResult.pass, score := some 0 } ∧
    evaluateCriteria [] = none := by
  constructor
  · norm_num [handleRunAll, overallScore, overallPass, reqTotalWeight,
      reqWeightedSum, validReqs]
  · simp [evaluateCriteria, totalWeight, List.foldl]

/-- C9: for any requirement and any draw in `[0, 1)`, the scored
requirement has a result that is `"pass"` or `"fail"` and a non-null
score; a pass-fail requirement's score is `0` or `1`, a subjective one's
lies in `[0, 1)`, and either score forms a criterion accepted by
`isValidCriterion` when paired with the matching tag and any non-negative
weight. -/
theorem claim_C9_single_run_scores_valid (req : Requirement) (draw : ℚ)
    (h0 : 0 ≤ draw) (h1 : draw < 1) :
    ((runSingleRequirement req draw).result = some RunResult.pass ∨
      (runSingleRequirement req draw).result = some RunResult.fail) ∧
    ∃ s : ℚ, (runSingleRequirement req draw).score = some s ∧
      (req.type = ReqType.passFail → (s = 0 ∨ s = 1)) ∧
      (req.type = ReqType.subjective → (0 ≤ s ∧ s < 1)) ∧
      ∀ w : ℚ, 0 ≤ w → isValidCriterion ⟨criterionTag req.type, s, w⟩ = true := by
  cases hty : req.type with
  | passFail =>
      have hbit : roundDraw draw = 0 ∨ roundDraw draw = 1 := by
        unfold roundDraw
        by_cases h : draw < 1/2
        · left; rw [if_pos h]
        · right; rw [if_neg h]
      constructor
      · by_cases hb : roundDraw draw = 1
        · left; simp [runSingleRequirement, hty, hb]
        · right; simp [runSingleRequirement, hty, hb]
      · refine ⟨roundDraw draw, by simp [runSingleRequirement, hty], ?_, ?_, ?_⟩
        · intro _; exact hbit
        · intro h; cases h
        · intro w hw
          rcases hbit with h | h <;>
            simp [isValidCriterion, criterionTag, h, hw]
  | subjective =>
      constructor
      · by_cases hb : draw ≥ req.threshold
        · left; simp [runSingleRequirement, hty, hb]
        · right; simp [runSingleRequirement, hty, hb]
      · refine ⟨draw, by simp [runSingleRequirement, hty], ?_, ?_, ?_⟩
        · intro h; cases h
        · intro _; exact ⟨h0, h1⟩
        · intro w hw
          simp [isValidCriterion, criterionTag, h0, le_of_lt h1, hw]

/-- Witness for C9 at the concrete subjective requirement and the draw
`0.3`. -/
theorem claim_C9_single_run_scores_valid_witness :
    ((runSingleRequirement reqSoftOptional (3/10)).result = some RunResult.pass ∨
      (runSingleRequirement reqSoftOptional (3/10)).result = some RunResult.fail) ∧
    ∃ s : ℚ, (runSingleRequirement reqSoftOptional (3/10)).score = some s ∧
      (reqSoftOptional.type = ReqType.passFail → (s = 0 ∨ s = 1)) ∧
      (reqSoftOptional.type = ReqType.subjective → (0 ≤ s ∧ s < 1)) ∧
      ∀ w : ℚ, 0 ≤ w →
        isValidCriterion ⟨criterionTag reqSoftOptional.type, s, w⟩ = true :=
  claim_C9_single_run_scores_valid reqSoftOptional (3/10)
    (by norm_num) (by norm_num)

/-- C8: on any list of scored requirements (every score non-null) whose
weights have a positive sum, the inline `overallScore` of `handleRunAll`
agrees with `evaluateCriteria` applied to the corresponding
`{type, score, weight}` criteria. -/
theorem claim_C8_run_all_matches_evaluator (reqs : List Requirement)
    (hs : ∀ r ∈ reqs, r.score.isSome = true)
    (hw : 0 < (reqs.map (fun r => r.weight)).sum) :
    evaluateCriteria (reqs.map toCriterion) = some (overallScore reqs) := by
  have hv : validReqs reqs = reqs := validReqs_eq_self reqs hs
  have htw : totalWeight (reqs.map toCriterion) =
      (reqs.map (fun r => r.weight)).sum := by
    rw [totalWeight_eq_sum, List.map_map]
    rfl
  have hws : weightedSum (reqs.map toCriterion) =
      (reqs.map (fun r => r.score.getD 0 * r.weight)).sum := by
    rw [weightedSum_eq_sum, List.map_map]
    rfl
  have h2 : reqTotalWeight reqs = (reqs.map (fun r => r.weight)).sum := by
    rw [reqTotalWeight_eq_sum, hv]
  have h3 : reqWeightedSum reqs =
      (reqs.map (fun r => r.score.getD 0 * r.weight)).sum := by
    rw [reqWeightedSum_eq_sum, hv]
  unfold evaluateCriteria overallScore
  rw [htw, hws, h2, h3]
  simp [ne_of_gt hw, hw]

/-- Witness for C8 at two concrete scored requirements of total weight 3. -/
theorem claim_C8_run_all_matches_evaluator_witness :
    evaluateCriteria ([scoredReqA, scoredReqB].map toCriterion) =
      some (overallScore [scoredReqA, scoredReqB]) :=
  claim_C8_run_all_matches_evaluator [scoredReqA, scoredReqB]
    (by
      intro r hr
      simp only [List.mem_cons, List.not_mem_nil, or_false] at hr
      rcases hr with rfl | rfl <;> rfl)
    (by norm_num [scoredReqA, scoredReqB])

/-- Scoring a run with one draw per requirement leaves the weight list
unchanged. -/
theorem zipWith_run_weights :
    ∀ (reqs : List Requirement) (draws : List ℚ),
      draws.length = reqs.length →
      (List.zipWith runSingleRequirement reqs draws).map (fun r => r.weight) =
        reqs.map (fun r => r.weight) := by
  intro reqs
  induction reqs with
  | nil => intro draws _; simp
  | cons a as ih =>
      intro draws hlen
      cases draws with
      | nil => simp at hlen
      | cons d ds =>
          simp only [List.length_cons, Nat.succ.injEq] at hlen
          simp only [List.zipWith_cons_cons, List.map_cons]
          rw [runSingleRequirement_weight, ih ds hlen]

/-- Every requirement scored inside a run has a non-null score. -/
theorem zipWith_run_scores_isSome :
    ∀ (reqs : List Requirement) (draws : List ℚ),
      ∀ r ∈ List.zipWith runSingleRequirement reqs draws,
        r.score.isSome = true := by
  intro reqs
  induction reqs with
  | nil => intro draws r hr; simp at hr
  | cons a as ih =>
      intro draws r hr
      cases draws with
      | nil => simp at hr
      | cons d ds =>
          simp only [List.zipWith_cons_cons, List.mem_cons] at hr
          rcases hr with rfl | hr
          · exact runSingleRequirement_score_isSome a d
          · exact ih ds r hr

/-- C10: on any run whose requirements have weights summing to zero,
`handleRunAll` stores the number `0` as the overall score (not the `NaN`
sentinel of §4.2), and the verdict is `"pass"` exactly when
`0 >= successThreshold` — so a zero-total-weight run with success
threshold `0` is reported as passed. -/
theorem claim_C10_zero_weight_run (reqs : List Requirement)
    (draws : List ℚ) (st : ℚ) (hlen : draws.length = reqs.length)
    (hw : (reqs.map (fun r => r.weight)).sum = 0) :
    (handleRunAll reqs draws st).2.score = some 0 ∧
    ((handleRunAll reqs draws st).2.result = some RunResult.pass ↔ (0:ℚ) ≥ st) := by
  have hvalid : validReqs (List.zipWith runSingleRequirement reqs draws) =
      List.zipWith runSingleRequirement reqs draws :=
    validReqs_eq_self _ (zipWith_run_scores_isSome reqs draws)
  have htw : reqTotalWeight (List.zipWith runSingleRequirement reqs draws) = 0 := by
    rw [reqTotalWeight_eq_sum, hvalid, zipWith_run_weights reqs draws hlen, hw]
  have hscore : overallScore (List.zipWith runSingleRequirement reqs draws) = 0 := by
    unfold overallScore
    rw [htw]
    simp
  constructor
  · simp only [handleRunAll]
    rw [hscore]
  · simp only [handleRunAll, overallPass, hscore]
    by_cases h : (0:ℚ) ≥ st
    · simp [h]
    · simp [h]

/-- Witness for C10: the single zero-weight requirement run with success
threshold `0`. -/
theorem claim_C10_zero_weight_run_witness :
    (handleRunAll [reqHardRequired] [3/10] 0).2.score = some 0 ∧
    ((handleRunAll [reqHardRequired] [3/10] 0).2.result = some RunResult.pass ↔
      (0:ℚ) ≥ 0) :=
  claim_C10_zero_weight_run [reqHardRequired] [3/10] 0 rfl
    (by norm_num [reqHardRequired])
